import Mathlib

/-!
Shallow embedding of the `tcp_proxy_epoll` TCP reverse proxy (Go) and proofs
about its connection-plane engine: backend selection, connection-manager
registration, epoll event dispatch, the copy task, idempotent close, the
health-state flag and the epoll wait retry loop.

The definitions below are direct translations of the Go source: the service
package (`application`, `backend`, `frontend`, `Conn`, `PipedConn`, `Proxy`)
and the `pkg/epoll` wrapper.  Atomic booleans become plain `Bool` fields with
explicit state passing; `sync.Once` becomes a used-flag on the shared pair
state; goroutine scheduling decisions (`go f(...)`) are reified as an
`Action` value returned by the dispatcher.
-/

namespace TcpProxy

/-! ## Backend health / connection-count view and `application.nextBackend` -/

/-- The part of a `backend` that `application.nextBackend` reads:
`active` (the `atomic.Bool`) and the size of the `connections` map
(`getConnCount()` returns `len(b.connections)`). -/
structure BackendView where
  active : Bool
  connCount : Nat
deriving DecidableEq, Repr

/-- `(b *backend) getConnCount()` returns the number of tracked connections. -/
def BackendView.getConnCount (b : BackendView) : Nat := b.connCount

/-- The loop body of `application.nextBackend`.  `next` carries the candidate
together with its index in `a.bnds` (pointer identity in Go); `minConnCount`
is the variable of the same name.  NOTE (faithful to the source): when a
smaller count is found, `next` is replaced but `minConnCount` is NOT updated —
this is the bug the proofs below exhibit. -/
def nextBackendAux : List (Nat × BackendView) → Option (Nat × BackendView) → Nat →
    Option (Nat × BackendView)
  | [], next, _ => next
  | (i, b) :: rest, next, minConnCount =>
    if b.active then
      match next with
      | none => nextBackendAux rest (some (i, b)) b.getConnCount
      | some nb =>
        if b.getConnCount < minConnCount then
          nextBackendAux rest (some (i, b)) minConnCount
        else
          nextBackendAux rest (some nb) minConnCount
    else
      nextBackendAux rest next minConnCount

/-- `application.nextBackend`: scans `a.bnds`; returns the chosen backend
(with its index, standing for the returned pointer) or `errNoActiveBackend`. -/
def nextBackend (bnds : List BackendView) : Except Unit (Nat × BackendView) :=
  match nextBackendAux bnds.enum none 0 with
  | none => .error ()   -- errNoActiveBackend
  | some r => .ok r

/-- The connection count of the best active backend, when one exists:
the minimum of `getConnCount` over the active backends. -/
def minActiveCount (bnds : List BackendView) : Option Nat :=
  match (bnds.filter fun b => b.active).map BackendView.getConnCount with
  | [] => none
  | c :: cs => some (cs.foldl Nat.min c)

/-! ## `Conn.Close` (Socket Handle, idempotent close) -/

/-- State of a `Conn`: the `closed` atomic flag plus an instrumentation
counter of how many times the underlying `net.Conn.Close` ran. -/
structure ConnState where
  closed : Bool
  underlyingCloses : Nat
deriving DecidableEq, Repr

/-- A freshly wrapped socket: `closed` is false, no underlying close yet. -/
def ConnState.fresh : ConnState := ⟨false, 0⟩

/-- Result of one `Close()` call: `true` when this call performed the
underlying close (and so returned its result), `false` when it was a no-op
returning nil. -/
def connClose (c : ConnState) : ConnState × Bool :=
  if c.closed then (c, false)                 -- CompareAndSwap(false,true) failed
  else ({ closed := true, underlyingCloses := c.underlyingCloses + 1 }, true)

/-- Calling `Close()` `n` times in a row (return values dropped). -/
def connCloseIter : Nat → ConnState → ConnState
  | 0, c => c
  | n + 1, c => connCloseIter n (connClose c).1

/-! ## `backend.setActive` and the health state machine -/

/-- `setActive` on the stored flag: `CompareAndSwap(!t, t)` succeeds (and the
status change is logged) exactly when the stored value differs from `t`; the
stored value is `t` afterwards either way. -/
def setActive (active : Bool) (t : Bool) : Bool × Bool :=
  if active = !t then (t, true) else (active, false)

/-- One connect attempt as the backend code performs it:
`probe s` is the startup probe or a ticker probe in `runHealthcheck`
(calls `setActive s`); `dial s` is a client-driven dial in `createConn`
(calls `setActive false` only on failure — success does not touch the flag). -/
inductive Attempt where
  | probe (success : Bool)
  | dial (success : Bool)
deriving DecidableEq, Repr

/-- Whether the attempt's connect succeeded. -/
def Attempt.success : Attempt → Bool
  | .probe s => s
  | .dial s => s

/-- Effect of one attempt on the stored `active` flag. -/
def applyAttempt (active : Bool) : Attempt → Bool
  | .probe s => (setActive active s).1
  | .dial s => if s then active else (setActive active false).1

/-- The `active` flag after a sequence of attempts; `atomic.Bool` starts
false (INACTIVE). -/
def activeAfter (as : List Attempt) : Bool :=
  as.foldl applyAttempt false

/-! ## Connection Manager state and `addConn` (frontend and backend are
identical here, both implement the `connManager` role) -/

/-- A connection as seen by `addConn`: its descriptor and `Conn` close state. -/
structure ConnEntry where
  fd : Nat
  conn : ConnState
deriving DecidableEq, Repr

/-- `Close()` on the entry's `Conn` (result dropped, as in `addConn`). -/
def ConnEntry.close (e : ConnEntry) : ConnEntry :=
  { e with conn := (connClose e.conn).1 }

/-- Go-map style insert into an association list keyed by fd. -/
def mapInsert (fd : Nat) (e : ConnEntry) : List (Nat × ConnEntry) → List (Nat × ConnEntry)
  | [] => [(fd, e)]
  | (k, v) :: rest => if k = fd then (fd, e) :: rest else (k, v) :: mapInsert fd e rest

/-- Observable state of a Connection Manager: whether its ctx is done, the
`connections` map, and the set of fds registered with its epoll instance. -/
structure MgrState where
  cancelled : Bool
  connections : List (Nat × ConnEntry)
  epollFds : List Nat
deriving DecidableEq, Repr

/-- `frontend.addConn` / `backend.addConn`, verbatim from the source: the
`select` closes the conn when the ctx is done (no `return` follows!), then
the conn is unconditionally inserted into the map and its fd added to epoll. -/
def addConn (st : MgrState) (e : ConnEntry) : MgrState :=
  let e := if st.cancelled then e.close else e
  { st with
    connections := mapInsert e.fd e st.connections
    epollFds := if st.epollFds.contains e.fd then st.epollFds else e.fd :: st.epollFds }

/-- `frontend.delConn` / `backend.delConn`: returns at once when the ctx is
done; otherwise unregisters the fd and deletes the map entry. -/
def delConn (st : MgrState) (fd : Nat) : MgrState :=
  if st.cancelled then st
  else
    { st with
      connections := st.connections.filter fun p => p.1 ≠ fd
      epollFds := st.epollFds.filter fun k => k ≠ fd }

/-! ## The Half-Leg pair, the shared `sync.Once`, `finalize`,
`serveEvent` and `serveConn` -/

/-- The two directions of one tunnel: `cb` is the client→backend leg (owned
by the frontend), `bc` the backend→client leg (owned by the backend). -/
inductive Leg where
  | cb
  | bc
deriving DecidableEq, Repr

/-- State of one Half-Leg pair created by `handleNewConnection`, together
with the two Connection Managers' views restricted to this pair.
`onceUsed` is the shared `sync.Once`; `finalizeRuns` counts executions of
the `finalize` body.  `inFront`/`inBack` record whether the client fd is in
the frontend's map and the backend fd in the backend's map. -/
structure PairState where
  onceUsed : Bool
  finalizeRuns : Nat
  clientConn : ConnState
  remoteConn : ConnState
  inFront : Bool
  inBack : Bool
  frontCancelled : Bool
  backCancelled : Bool
  underIoCb : Bool
  underIoBc : Bool
deriving DecidableEq, Repr

/-- The pair state right after `handleNewConnection` registered both legs. -/
def PairState.fresh : PairState :=
  { onceUsed := false, finalizeRuns := 0
    clientConn := ConnState.fresh, remoteConn := ConnState.fresh
    inFront := true, inBack := true
    frontCancelled := false, backCancelled := false
    underIoCb := false, underIoBc := false }

/-- The `underIO` flag of the given leg. -/
def PairState.underIo (st : PairState) : Leg → Bool
  | .cb => st.underIoCb
  | .bc => st.underIoBc

/-- Write the `underIO` flag of the given leg (the effect of a successful
`setUnderIO`; the CAS result is `st.underIo leg ≠ v`). -/
def PairState.writeUnderIo (st : PairState) (leg : Leg) (v : Bool) : PairState :=
  match leg with
  | .cb => { st with underIoCb := v }
  | .bc => { st with underIoBc := v }

/-- `PipedConn.finalize` invoked on `leg`:
`c.setUnderIO(false); c.Close(); c.pipeTo.Close();
c.pipeTo.manager.delConn(c.pipeTo.fd); c.manager.delConn(c.fd)`.
For the cb leg, `c` reads the client conn (manager = frontend) and pipes to
the remote conn (manager = backend); for the bc leg the roles are swapped.
`delConn` is a no-op on a cancelled manager. -/
def finalize (st : PairState) (leg : Leg) : PairState :=
  let st := st.writeUnderIo leg false
  let st := { st with
    clientConn := (connClose st.clientConn).1
    remoteConn := (connClose st.remoteConn).1 }
  let st := { st with inBack := if st.backCancelled then st.inBack else false }
  { st with
    inFront := if st.frontCancelled then st.inFront else false
    finalizeRuns := st.finalizeRuns + 1 }

/-- `finalizeOnce.Do(func() { ...; conn.finalize() })` invoked from `leg`:
runs the body only on the first call on the shared token. -/
def onceFinalize (st : PairState) (leg : Leg) : PairState :=
  if st.onceUsed then st
  else finalize { st with onceUsed := true } leg

/-! ### Epoll event masks (numeric values of the unix constants) -/

/-- `unix.EPOLLIN`. -/
def EPOLLIN : Nat := 0x1
/-- `unix.EPOLLHUP`. -/
def EPOLLHUP : Nat := 0x10
/-- `unix.EPOLLRDHUP`. -/
def EPOLLRDHUP : Nat := 0x2000

/-- What `serveEvent` schedules for an event (a reified `go` statement):
nothing, a finalize task via the shared once, or a copy task (`serveConn`). -/
inductive Action where
  | drop
  | scheduleFinalize
  | scheduleCopy
deriving DecidableEq, Repr

/-- Whether the leg's reading fd is still in its manager's `connections`
map (what the `getConnByFD` lookup in `serveEvent` observes). -/
def PairState.legRegistered (st : PairState) : Leg → Bool
  | .cb => st.inFront
  | .bc => st.inBack

/-- `frontend.serveEvent` / `backend.serveEvent` for an event carrying this
pair's fd on the given manager's leg, with `events` the epoll event mask:
look up the conn (absent ⇒ drop); `setUnderIO(true)` (already set ⇒ drop);
HUP/RDHUP ⇒ schedule finalize and return, even if EPOLLIN is also set;
else EPOLLIN ⇒ schedule a copy. -/
def serveEvent (st : PairState) (leg : Leg) (events : Nat) : PairState × Action :=
  if !(st.legRegistered leg) then (st, .drop)
  else if st.underIo leg then (st, .drop)
  else
    let st := st.writeUnderIo leg true
    if events.land (EPOLLHUP ||| EPOLLRDHUP) ≠ 0 then (st, .scheduleFinalize)
    else if events.land EPOLLIN ≠ 0 then (st, .scheduleCopy)
    else (st, .drop)

/-- Result of `io.CopyBuffer(conn.pipeTo, conn, *buf)` inside `serveConn`:
the byte count and whether an error occurred. -/
structure CopyResult where
  n : Nat
  isErr : Bool
deriving DecidableEq, Repr

/-- `frontend.serveConn` / `backend.serveConn` after the copy returned `res`:
clear `underIO`; when the copy errored or moved zero bytes, run the shared
finalizer once. -/
def serveConn (st : PairState) (leg : Leg) (res : CopyResult) : PairState :=
  let st := st.writeUnderIo leg false
  if res.isErr || res.n = 0 then onceFinalize st leg
  else st

/-! ## `NewProxy` cancellation-token wiring -/

/-- The two context values visible inside `NewProxy`: the caller's `ctx` and
`nCtx` derived from it by `context.WithCancel`. -/
inductive Tok where
  | caller
  | derived
deriving DecidableEq, Repr

/-- Whether a token is cancelled, given whether the caller's token was
cancelled and whether the Proxy's own `cancel` fired: `nCtx` is a child of
`ctx`, so it is cancelled when either happened. -/
def Tok.cancelled (callerDone proxyCancelFired : Bool) : Tok → Bool
  | .caller => callerDone
  | .derived => callerDone || proxyCancelFired

/-- One app of the Go `ProxyConfig`. -/
structure ConfigApp where
  name : String
  ports : List Nat
  targets : List String
deriving DecidableEq, Repr

/-- `ProxyConfig`. -/
structure ProxyConfig where
  apps : List ConfigApp
deriving DecidableEq, Repr

/-- A constructed backend, recording the context argument `NewProxy` passed
to `newBackend` (the source passes `ctx`, the caller's token). -/
structure BackendTok where
  addr : String
  tok : Tok
deriving DecidableEq, Repr

/-- A constructed application, recording the context argument passed to
`newApplication` (`nCtx`) and its backends. -/
structure AppTok where
  name : String
  tok : Tok
  bnds : List BackendTok
deriving DecidableEq, Repr

/-- A constructed frontend, recording the context argument passed to
`newFrontend` (`nCtx`). -/
structure FrontendTok where
  port : Nat
  tok : Tok
deriving DecidableEq, Repr

/-- The token-wiring view of the constructed `Proxy`. -/
structure ProxyTok where
  tok : Tok
  apps : List AppTok
  fnds : List FrontendTok
  bnds : List BackendTok
deriving DecidableEq, Repr

/-- One iteration of the `NewProxy` loop over `config.Apps`, restricted to
its context wiring: each target becomes a backend built with `ctx`
(`newBackend(ctx, logger, target, &bufPool)` — the caller's token!), the
application is built with `nCtx`, and each port becomes a frontend built
with `nCtx`.  The construction error paths (address validation, epoll
creation) are orthogonal to the wiring and elided. -/
def newProxyStep (acc : List AppTok × List FrontendTok × List BackendTok)
    (configApp : ConfigApp) : List AppTok × List FrontendTok × List BackendTok :=
  let appBnds := configApp.targets.map fun target =>
    BackendTok.mk target .caller
  let app := AppTok.mk configApp.name .derived appBnds
  let newFnds := configApp.ports.map fun port =>
    FrontendTok.mk port .derived
  (acc.1 ++ [app], acc.2.1 ++ newFnds, acc.2.2 ++ appBnds)

/-- See the doc comment above `newProxyStep`: the loop of `NewProxy`. -/
def newProxy (config : ProxyConfig) : ProxyTok :=
  let r := config.apps.foldl newProxyStep ([], [], [])
  { tok := .derived, apps := r.1, fnds := r.2.1, bnds := r.2.2 }

/-! ## `Epoll.Wait` retry loop (`pkg/epoll/epoll_linux.go`) -/

/-- The errno values `temporaryErr` distinguishes, plus every other error. -/
inductive Errno where
  | eintr
  | emfile
  | enfile
  | eagain
  | ewouldblock
  | etimedout
  | other (code : Nat)
deriving DecidableEq, Repr

/-- `temporaryErr`: interrupted, fd-exhaustion, would-block and timeout
errors are transient. -/
def temporaryErr : Errno → Bool
  | .eintr => true
  | .emfile => true
  | .enfile => true
  | .eagain => true
  | .ewouldblock => true
  | .etimedout => true
  | .other _ => false

/-- One record returned by the kernel: an fd and its event mask. -/
structure EpollEvent where
  fd : Nat
  events : Nat
deriving DecidableEq, Repr

/-- One outcome of the `unix.EpollWait` syscall: either the ready events
(the kernel fills the caller's buffer, so at most its capacity of 100 are
returned) or an errno. -/
inductive SysResult where
  | ok (ready : List EpollEvent)
  | err (e : Errno)
deriving DecidableEq, Repr

/-- `Epoll.Wait`: loop calling `unix.EpollWait` on a 100-slot buffer; a
temporary error `continue`s, any other error is wrapped and returned, a
success breaks with `events[:n]`.  The syscall's successive outcomes are the
input list; `none` means every provided outcome was a temporary error and the
loop is still blocked in the syscall. -/
def waitLoop : List SysResult → Option (Except Errno (List EpollEvent))
  | [] => none
  | .ok ready :: _ => some (.ok (ready.take 100))
  | .err e :: rest =>
    if temporaryErr e then waitLoop rest
    else some (.error e)

/-! ## Theorems -/

/-- C1: `nextBackend` does not return a backend of minimal connection count.
On backends with counts 5, 3, 4 (all active) it returns the third backend
(4 connections) although the minimum over active backends is 3: the loop
replaces `next` on `getConnCount() < minConnCount` without updating
`minConnCount`, contradicting its own doc comment ("chooses the next
available backend with MIN number of connections") and the spec. -/
theorem nextBackend_bug :
    nextBackend [⟨true, 5⟩, ⟨true, 3⟩, ⟨true, 4⟩] =
      .ok (2, ⟨true, 4⟩) ∧
    minActiveCount [⟨true, 5⟩, ⟨true, 3⟩, ⟨true, 4⟩] = some 3 ∧
    (4 : Nat) ≠ 3 := by
  refine ⟨rfl, rfl, by decide⟩

/-- C2: `addConn` after cancellation closes the leg's reader but, lacking a
`return` after the `select`, still inserts the fd into the `connections` map
and registers it with the notifier — contradicting the spec's "close … and
return" and invariant 5, and making the close-on-cancel pointless. -/
theorem addConn_after_cancel :
    addConn { cancelled := true, connections := [], epollFds := [] }
        { fd := 7, conn := ConnState.fresh } =
      { cancelled := true
        connections := [(7, { fd := 7, conn := { closed := true, underlyingCloses := 1 } })]
        epollFds := [7] } := by
  rfl

/-- The `connections` map of a Connection Manager does not shrink across
`addConn`; in particular the added fd is a key afterwards. -/
theorem addConn_inserts (st : MgrState) (e : ConnEntry) :
    ((addConn st e).connections.lookup e.fd).isSome = true := by
  have h : ∀ (l : List (Nat × ConnEntry)) (x : ConnEntry),
      (mapInsert x.fd x l).lookup x.fd = some x := by
    intro l x
    induction l with
    | nil => simp [mapInsert, List.lookup]
    | cons p rest ih =>
      rcases p with ⟨k, v⟩
      by_cases hk : k = x.fd
      · subst hk
        simp [mapInsert, List.lookup]
      · have hne : (x.fd == k) = false := beq_eq_false_iff_ne.mpr (Ne.symm hk)
        simp [mapInsert, hk, List.lookup, hne, ih]
  by_cases hc : st.cancelled
  · have he := h st.connections e.close
    simp only [ConnEntry.close] at he
    simp [addConn, hc, ConnEntry.close, he]
  · simp [addConn, hc, h st.connections e]

/-- Helper: iterating `Close` on an already closed `Conn` changes nothing. -/
theorem connCloseIter_closed (n : Nat) (c : ConnState) (h : c.closed = true) :
    connCloseIter n c = c := by
  induction n with
  | zero => rfl
  | succ m ih => simp [connCloseIter, connClose, h, ih]

/-- C7: `Conn.Close` is idempotent: any `n ≥ 1` calls leave the same state
as a single call, the underlying close runs exactly once, the first call is
the one that performs it, and a call on an already-closed handle is a no-op
returning nil. -/
theorem connClose_idempotent (n : Nat) (h : 1 ≤ n) :
    connCloseIter n ConnState.fresh = connCloseIter 1 ConnState.fresh ∧
    (connCloseIter n ConnState.fresh).underlyingCloses = 1 ∧
    (connClose ConnState.fresh).2 = true ∧
    (∀ c : ConnState, c.closed = true → connClose c = (c, false)) := by
  cases n with
  | zero => exact absurd h (by decide)
  | succ m =>
    have h1 : connCloseIter (m + 1) ConnState.fresh =
        { closed := true, underlyingCloses := 1 } := by
      show connCloseIter m (connClose ConnState.fresh).1 = _
      exact connCloseIter_closed m _ rfl
    refine ⟨by rw [h1]; rfl, by rw [h1], rfl, ?_⟩
    intro c hc
    simp [connClose, hc]

/-- Closed instance of C7 at `n = 3`. -/
theorem connClose_idempotent_witness :
    connCloseIter 3 ConnState.fresh = connCloseIter 1 ConnState.fresh ∧
    (connCloseIter 3 ConnState.fresh).underlyingCloses = 1 ∧
    (connClose ConnState.fresh).2 = true ∧
    (∀ c : ConnState, c.closed = true → connClose c = (c, false)) :=
  connClose_idempotent 3 (by decide)

/-- C8 counterexample: after a failed probe followed by a successful
client-driven dial, the `active` flag is still false although the most
recent connect attempt succeeded — `createConn` only calls
`setActive(false)` on failure and never `setActive(true)` on success. -/
theorem activeFlag_dial_success_cex :
    activeAfter [Attempt.probe false, Attempt.dial true] = false ∧
    Attempt.success (Attempt.dial true) = true := by
  exact ⟨rfl, rfl⟩

/-- C8 (amended): the flag starts INACTIVE; each probe (startup or ticker)
sets it to that probe's success; a failed dial sets it INACTIVE while a
successful dial leaves it unchanged; `setActive` stores `t` and reports a
status change exactly when the stored value actually changes (the CAS). -/
theorem activeFlag_matches_attempts (as : List Attempt) (s : Bool) (v t : Bool) :
    activeAfter [] = false ∧
    activeAfter (as ++ [Attempt.probe s]) = s ∧
    activeAfter (as ++ [Attempt.dial false]) = false ∧
    activeAfter (as ++ [Attempt.dial true]) = activeAfter as ∧
    (setActive v t).1 = t ∧
    ((setActive v t).2 = true ↔ v ≠ t) := by
  have hfst : ∀ a b : Bool, (setActive a b).1 = b := by decide
  have hsnd : ∀ a b : Bool, ((setActive a b).2 = true ↔ a ≠ b) := by decide
  refine ⟨rfl, ?_, ?_, ?_, hfst v t, hsnd v t⟩
  · simp [activeAfter, List.foldl_append, applyAttempt, hfst]
  · simp [activeAfter, List.foldl_append, applyAttempt, hfst]
  · simp [activeAfter, List.foldl_append, applyAttempt]

/-- C3 counterexample: on a one-app config, the constructed backend records
the caller's token, not the derived one — `NewProxy` calls
`newBackend(ctx, …)` while everything else receives `nCtx`. -/
theorem newProxy_backend_gets_caller_token :
    (newProxy ⟨[⟨"a", [9000], ["127.0.0.1:9001"]⟩]⟩).bnds =
      [{ addr := "127.0.0.1:9001", tok := Tok.caller }] ∧
    Tok.caller ≠ Tok.derived := by
  exact ⟨rfl, by decide⟩

/-- Helper: the `NewProxy` loop only ever appends derived-token apps and
frontends and caller-token backends. -/
theorem newProxyStep_foldl (l : List ConfigApp)
    (acc : List AppTok × List FrontendTok × List BackendTok)
    (h1 : (acc.1.all fun a => a.tok == Tok.derived) = true)
    (h2 : (acc.2.1.all fun f => f.tok == Tok.derived) = true)
    (h3 : (acc.2.2.all fun b => b.tok == Tok.caller) = true) :
    ((l.foldl newProxyStep acc).1.all fun a => a.tok == Tok.derived) = true ∧
    ((l.foldl newProxyStep acc).2.1.all fun f => f.tok == Tok.derived) = true ∧
    ((l.foldl newProxyStep acc).2.2.all fun b => b.tok == Tok.caller) = true := by
  induction l generalizing acc with
  | nil => exact ⟨h1, h2, h3⟩
  | cons ca rest ih =>
    refine ih (newProxyStep acc ca) ?_ ?_ ?_
    · simp [newProxyStep, List.all_append, h1]
    · simp [newProxyStep, List.all_append, List.all_map, h2, Function.comp]
    · simp [newProxyStep, List.all_append, List.all_map, h3, Function.comp]

/-- C3 (amended): `NewProxy` passes the derived token to every application
and frontend, but every backend receives the caller's original token;
cancelling the caller's token (the only parent) cancels every component's
token, whether or not the Proxy's own cancel fired. -/
theorem newProxy_token_wiring (config : ProxyConfig) (p : Bool) :
    ((newProxy config).apps.all fun a => a.tok == Tok.derived) = true ∧
    ((newProxy config).fnds.all fun f => f.tok == Tok.derived) = true ∧
    ((newProxy config).bnds.all fun b => b.tok == Tok.caller) = true ∧
    Tok.cancelled true p (newProxy config).tok = true ∧
    ((newProxy config).apps.all fun a => Tok.cancelled true p a.tok) = true ∧
    ((newProxy config).fnds.all fun f => Tok.cancelled true p f.tok) = true ∧
    ((newProxy config).bnds.all fun b => Tok.cancelled true p b.tok) = true := by
  have hall : ∀ t : Tok, Tok.cancelled true p t = true := by
    intro t
    cases t <;> simp [Tok.cancelled]
  obtain ⟨g1, g2, g3⟩ := newProxyStep_foldl config.apps ([], [], []) rfl rfl rfl
  refine ⟨g1, g2, g3, hall _, ?_, ?_, ?_⟩ <;>
    exact List.all_eq_true.mpr fun x _ => hall _

/-- Helper: `finalizeOnce.Do` on a consumed token is a no-op. -/
theorem onceFinalize_used (st : PairState) (leg : Leg) (h : st.onceUsed = true) :
    onceFinalize st leg = st := by
  simp [onceFinalize, h]

/-- Any sequence of `finalizeOnce.Do` invocations, in the order the
interleaving serialized them. -/
def runFinalizers (sides : List Leg) (st : PairState) : PairState :=
  sides.foldl onceFinalize st

/-- Helper: once the token is consumed, further invocations change nothing. -/
theorem runFinalizers_used (sides : List Leg) (st : PairState)
    (h : st.onceUsed = true) : runFinalizers sides st = st := by
  induction sides with
  | nil => rfl
  | cons l rest ih =>
    show runFinalizers rest (onceFinalize st l) = st
    rw [onceFinalize_used st l h]
    exact ih

/-- The pair state after `finalize` ran once from a freshly registered
pair: token consumed, both sockets closed exactly once, both fds removed
from their managers, `underIO` clear. -/
def PairState.finalized : PairState :=
  { onceUsed := true, finalizeRuns := 1
    clientConn := { closed := true, underlyingCloses := 1 }
    remoteConn := { closed := true, underlyingCloses := 1 }
    inFront := false, inBack := false
    frontCancelled := false, backCancelled := false
    underIoCb := false, underIoBc := false }

/-- Helper: the first invocation from either side fully finalizes the pair. -/
theorem runFinalizers_cons_fresh (l : Leg) (rest : List Leg) :
    runFinalizers (l :: rest) PairState.fresh = PairState.finalized := by
  show runFinalizers rest (onceFinalize PairState.fresh l) = PairState.finalized
  have h : onceFinalize PairState.fresh l = PairState.finalized := by
    cases l <;> rfl
  rw [h]
  exact runFinalizers_used rest _ rfl

/-- C4: the two legs share one single-shot finalizer; over every invocation
sequence the finalize body runs at most once, and after any nonempty
sequence — whichever side came first — the pair is in the finalized state:
`underIO` clear on both legs, both sockets' underlying close ran exactly
once, and both fds removed from their Connection Managers. -/
theorem finalize_once_per_pair (sides : List Leg) (h : sides ≠ []) :
    (∀ seq : List Leg, (runFinalizers seq PairState.fresh).finalizeRuns ≤ 1) ∧
    runFinalizers sides PairState.fresh = PairState.finalized ∧
    (runFinalizers sides PairState.fresh).underIoCb = false ∧
    (runFinalizers sides PairState.fresh).underIoBc = false ∧
    (runFinalizers sides PairState.fresh).clientConn.underlyingCloses = 1 ∧
    (runFinalizers sides PairState.fresh).remoteConn.underlyingCloses = 1 ∧
    (runFinalizers sides PairState.fresh).inFront = false ∧
    (runFinalizers sides PairState.fresh).inBack = false := by
  have hseq : ∀ seq : List Leg,
      (runFinalizers seq PairState.fresh).finalizeRuns ≤ 1 := by
    intro seq
    cases seq with
    | nil => decide
    | cons l rest => rw [runFinalizers_cons_fresh]; decide
  cases sides with
  | nil => exact absurd rfl h
  | cons l rest =>
    rw [runFinalizers_cons_fresh]
    exact ⟨hseq, rfl, rfl, rfl, rfl, rfl, rfl, rfl⟩

/-- Closed instance of C4: backend side detects end-of-stream first, then
the client side fires as well. -/
theorem finalize_once_per_pair_witness :
    (∀ seq : List Leg, (runFinalizers seq PairState.fresh).finalizeRuns ≤ 1) ∧
    runFinalizers [Leg.bc, Leg.cb] PairState.fresh = PairState.finalized ∧
    (runFinalizers [Leg.bc, Leg.cb] PairState.fresh).underIoCb = false ∧
    (runFinalizers [Leg.bc, Leg.cb] PairState.fresh).underIoBc = false ∧
    (runFinalizers [Leg.bc, Leg.cb] PairState.fresh).clientConn.underlyingCloses = 1 ∧
    (runFinalizers [Leg.bc, Leg.cb] PairState.fresh).remoteConn.underlyingCloses = 1 ∧
    (runFinalizers [Leg.bc, Leg.cb] PairState.fresh).inFront = false ∧
    (runFinalizers [Leg.bc, Leg.cb] PairState.fresh).inBack = false :=
  finalize_once_per_pair [Leg.bc, Leg.cb] (by decide)

/-- Helper: an event for a leg already under IO is dropped without effect,
whether or not the leg is still registered. -/
theorem serveEvent_underIo_drop (st : PairState) (leg : Leg) (events : Nat)
    (h : st.underIo leg = true) : serveEvent st leg events = (st, Action.drop) := by
  cases hr : st.legRegistered leg <;> simp [serveEvent, hr, h]

/-- C5: `serveEvent` dispatch — unknown fd or a leg already under IO drops
the event with no state change; otherwise HUP/RDHUP schedules the shared
finalizer (even when EPOLLIN is set in the same mask) and no copy; only
otherwise EPOLLIN schedules a copy task. -/
theorem serveEvent_dispatch (st : PairState) (leg : Leg) (events : Nat) :
    (st.legRegistered leg = false → serveEvent st leg events = (st, Action.drop)) ∧
    (st.underIo leg = true → serveEvent st leg events = (st, Action.drop)) ∧
    (st.legRegistered leg = true → st.underIo leg = false →
      events.land (EPOLLHUP ||| EPOLLRDHUP) ≠ 0 →
      serveEvent st leg events =
        (st.writeUnderIo leg true, Action.scheduleFinalize)) ∧
    (st.legRegistered leg = true → st.underIo leg = false →
      events.land (EPOLLHUP ||| EPOLLRDHUP) = 0 → events.land EPOLLIN ≠ 0 →
      serveEvent st leg events = (st.writeUnderIo leg true, Action.scheduleCopy)) := by
  refine ⟨?_, serveEvent_underIo_drop st leg events, ?_, ?_⟩
  · intro hr
    simp [serveEvent, hr]
  · intro hr hio hhup
    simp [serveEvent, hr, hio, hhup]
  · intro hr hio hhup hin
    simp [serveEvent, hr, hio, hhup, hin]

/-- Closed instance of C5: a mask carrying both EPOLLIN and EPOLLRDHUP
schedules the finalizer, not a copy. -/
theorem serveEvent_dispatch_witness :
    serveEvent PairState.fresh Leg.cb 0x2001 =
      (PairState.fresh.writeUnderIo Leg.cb true, Action.scheduleFinalize) :=
  (serveEvent_dispatch PairState.fresh Leg.cb 0x2001).2.2.1 rfl rfl (by decide)

/-- Helper: writing the flag of one leg is read back on that leg. -/
theorem writeUnderIo_underIo (st : PairState) (leg : Leg) (v : Bool) :
    (st.writeUnderIo leg v).underIo leg = v := by
  cases leg <;> rfl

/-- Helper: `finalizeOnce.Do` leaves a clear `underIO` flag clear. -/
theorem onceFinalize_underIo (st : PairState) (leg : Leg)
    (h : st.underIo leg = false) : (onceFinalize st leg).underIo leg = false := by
  by_cases hu : st.onceUsed
  · rw [onceFinalize_used st leg hu]; exact h
  · simp only [onceFinalize, hu, if_false]
    cases leg <;> simp [finalize, PairState.writeUnderIo, PairState.underIo]

/-- Helper: after `finalizeOnce.Do` the token is consumed. -/
theorem onceFinalize_consumes (st : PairState) (leg : Leg) :
    (onceFinalize st leg).onceUsed = true := by
  by_cases hu : st.onceUsed
  · rw [onceFinalize_used st leg hu]; exact hu
  · simp only [onceFinalize, hu, if_false]
    cases leg <;> simp [finalize, PairState.writeUnderIo]

/-- C6: after the copy, `serveConn` clears the leg's `underIO`; on success
with more than zero bytes it changes nothing else — the leg stays
registered, the once token and run count are untouched; on an error or a
zero-byte copy it invokes the shared finalizer (token consumed). -/
theorem serveConn_post (st : PairState) (leg : Leg) (res : CopyResult) :
    (serveConn st leg res).underIo leg = false ∧
    (res.isErr = false → res.n ≠ 0 →
      serveConn st leg res = st.writeUnderIo leg false ∧
      (serveConn st leg res).finalizeRuns = st.finalizeRuns ∧
      (serveConn st leg res).onceUsed = st.onceUsed ∧
      (serveConn st leg res).legRegistered leg = st.legRegistered leg) ∧
    ((res.isErr = true ∨ res.n = 0) →
      serveConn st leg res = onceFinalize (st.writeUnderIo leg false) leg ∧
      (serveConn st leg res).onceUsed = true) := by
  refine ⟨?_, ?_, ?_⟩
  · by_cases hg : res.isErr || res.n = 0
    · simp only [serveConn, hg, if_true]
      exact onceFinalize_underIo _ leg (writeUnderIo_underIo st leg false)
    · simp only [serveConn, hg, if_false]
      exact writeUnderIo_underIo st leg false
  · intro he hn
    have hg : (res.isErr || decide (res.n = 0)) = false := by
      simp [he, hn]
    have hs : serveConn st leg res = st.writeUnderIo leg false := by
      simp [serveConn, he, hn]
    refine ⟨hs, ?_, ?_, ?_⟩ <;> rw [hs] <;> cases leg <;> rfl
  · intro hg
    have hs : serveConn st leg res = onceFinalize (st.writeUnderIo leg false) leg := by
      rcases hg with hg | hg <;> simp [serveConn, hg]
    exact ⟨hs, by rw [hs]; exact onceFinalize_consumes _ leg⟩

/-- Closed instance of C6: a clean copy of 5 bytes on the client→backend
leg only clears the flag. -/
theorem serveConn_post_witness :
    serveConn PairState.fresh Leg.cb ⟨5, false⟩ =
      PairState.fresh.writeUnderIo Leg.cb false ∧
    (serveConn PairState.fresh Leg.cb ⟨5, false⟩).finalizeRuns =
      PairState.fresh.finalizeRuns ∧
    (serveConn PairState.fresh Leg.cb ⟨5, false⟩).onceUsed =
      PairState.fresh.onceUsed ∧
    (serveConn PairState.fresh Leg.cb ⟨5, false⟩).legRegistered Leg.cb =
      PairState.fresh.legRegistered Leg.cb :=
  (serveConn_post PairState.fresh Leg.cb ⟨5, false⟩).2.1 rfl (by decide)

/-- C9: `Epoll.Wait` returns a batch of at most 100 records; a temporary
errno from the wait syscall is retried transparently (the loop result is
that of the remaining outcomes); a surfaced error is never a temporary one;
a successful syscall ends the loop with the kernel's batch. -/
theorem epollWait_spec :
    (∀ rs evs, waitLoop rs = some (Except.ok evs) → evs.length ≤ 100) ∧
    (∀ rs e, waitLoop rs = some (Except.error e) → temporaryErr e = false) ∧
    (∀ rs e, temporaryErr e = true → waitLoop (SysResult.err e :: rs) = waitLoop rs) ∧
    (∀ ready rs, waitLoop (SysResult.ok ready :: rs) =
      some (Except.ok (ready.take 100))) := by
  refine ⟨?_, ?_, ?_, ?_⟩
  · intro rs
    induction rs with
    | nil => intro evs h; exact absurd h (by simp [waitLoop])
    | cons r rest ih =>
      intro evs h
      cases r with
      | ok ready =>
        simp only [waitLoop, Option.some.injEq, Except.ok.injEq] at h
        rw [← h]
        simp [Nat.min_le_left 100 ready.length]
      | err e =>
        by_cases ht : temporaryErr e
        · rw [waitLoop, if_pos ht] at h
          exact ih evs h
        · rw [waitLoop, if_neg ht] at h
          exact absurd h (by simp)
  · intro rs
    induction rs with
    | nil => intro e h; exact absurd h (by simp [waitLoop])
    | cons r rest ih =>
      intro e h
      cases r with
      | ok ready => exact absurd h (by simp [waitLoop])
      | err e0 =>
        by_cases ht : temporaryErr e0
        · rw [waitLoop, if_pos ht] at h
          exact ih e h
        · rw [waitLoop, if_neg ht] at h
          simp only [Option.some.injEq, Except.error.injEq] at h
          rw [← h]
          exact Bool.not_eq_true _ ▸ eq_false_of_ne_true (by simpa using ht)
  · intro rs e ht
    rw [waitLoop, if_pos ht]
  · intro ready rs
    rfl

/-- Closed instance of C9: an EINTR is skipped and the following success
batch is returned. -/
theorem epollWait_spec_witness :
    waitLoop [SysResult.err Errno.eintr, SysResult.ok []] =
      waitLoop [SysResult.ok []] :=
  epollWait_spec.2.2.1 [SysResult.ok []] Errno.eintr rfl

/-- C10: a readiness event whose mask has none of EPOLLIN, EPOLLHUP or
EPOLLRDHUP (an error-only mask) flips the leg's `underIO` to true and
schedules nothing, and because nothing will ever clear the flag, every
subsequent event for that fd — whatever its mask — is dropped. -/
theorem serveEvent_error_only_mask (st : PairState) (leg : Leg)
    (events events2 : Nat)
    (hreg : st.legRegistered leg = true) (hio : st.underIo leg = false)
    (hhup : events.land (EPOLLHUP ||| EPOLLRDHUP) = 0)
    (hin : events.land EPOLLIN = 0) :
    serveEvent st leg events = (st.writeUnderIo leg true, Action.drop) ∧
    (st.writeUnderIo leg true).underIo leg = true ∧
    serveEvent (st.writeUnderIo leg true) leg events2 =
      (st.writeUnderIo leg true, Action.drop) := by
  refine ⟨?_, writeUnderIo_underIo st leg true, ?_⟩
  · simp [serveEvent, hreg, hio, hhup, hin]
  · exact serveEvent_underIo_drop _ leg events2 (writeUnderIo_underIo st leg true)

/-- Closed instance of C10: an EPOLLERR-only mask (0x8) on a fresh
client→backend leg strands the leg; a later EPOLLIN+EPOLLRDHUP event is
dropped. -/
theorem serveEvent_error_only_mask_witness :
    serveEvent PairState.fresh Leg.cb 0x8 =
      (PairState.fresh.writeUnderIo Leg.cb true, Action.drop) ∧
    (PairState.fresh.writeUnderIo Leg.cb true).underIo Leg.cb = true ∧
    serveEvent (PairState.fresh.writeUnderIo Leg.cb true) Leg.cb 0x2001 =
      (PairState.fresh.writeUnderIo Leg.cb true, Action.drop) :=
  serveEvent_error_only_mask PairState.fresh Leg.cb 0x8 0x2001 rfl rfl
    (by decide) (by decide)

end TcpProxy
